import Mathlib

/-!
Shallow embedding of the CometBFT DB migration tool (`db_migrate.go`) and
proofs about its specification claims.

The program has two parts:
* `migrateDB` — streams every record of a source store, in iterator order,
  into batches against the destination store; every time the running count
  reaches a multiple of 10000 it commits (synchronously) and starts a fresh
  batch; after the iterator is exhausted it commits the remaining batch
  (even if empty).
* `main` — creates a staging directory, migrates the four fixed stores plus
  an optional light-client store, asks for a yes/no backup confirmation,
  and if confirmed swaps the top-level staged directories into the live
  data directory (removing a same-named live entry first); finally it
  removes the staging directory.

Keys and values are opaque byte sequences, modelled as `List Nat`.
Fallible external operations (store open, iterator construction, batch
add, batch commit, batch close, filesystem calls) are modelled by error
oracles: an `Option String` (or a function to `Option String` for indexed
operations) that is `some cause` exactly when the corresponding call in
the program would return a non-nil error with that underlying cause.
-/

namespace DBMigrate

/-- A record of a store: an opaque (key, value) pair of byte sequences. -/
structure Record where
  key : List Nat
  value : List Nat
deriving DecidableEq

/-- State of the migration loop in `migrateDB`: the batches committed so
far (in commit order), the current open batch (in insertion order), and
the running `totalCount`. -/
structure MigState where
  committed : List (List Record)
  batch : List Record
  totalCount : Nat
deriving DecidableEq

/-- The state right after `batch := newDB.NewBatch()` and `var totalCount int`. -/
def initState : MigState := ⟨[], [], 0⟩

/-- One iteration of the loop body of `migrateDB` (error-free case):
`batch.Set(key, value)`, `totalCount++`, and, when `totalCount` is a
multiple of 10000, commit the batch and start a fresh one. -/
def migrateStep (s : MigState) (r : Record) : MigState :=
  if (s.totalCount + 1) % 10000 = 0 then
    ⟨s.committed ++ [s.batch ++ [r]], [], s.totalCount + 1⟩
  else
    ⟨s.committed, s.batch ++ [r], s.totalCount + 1⟩

/-- The whole loop of `migrateDB` over the source iterator's output. -/
def migrateLoop (records : List Record) : MigState :=
  records.foldl migrateStep initState

/-- `migrateDB` in the error-free case: the sequence of committed batches
(the final commit of the remaining batch included, even when it is empty)
together with the final `totalCount`. -/
def migrateDB (records : List Record) : List (List Record) × Nat :=
  ((migrateLoop records).committed ++ [(migrateLoop records).batch],
    (migrateLoop records).totalCount)

/-- Loop invariant of `migrateDB` after processing the records in `done`:
the running count equals the number of processed records, the open batch
holds `totalCount % 10000` records, `totalCount / 10000` full batches of
10000 records each have been committed, and the committed batches followed
by the open batch list exactly the processed records in order. -/
def Inv (done : List Record) (s : MigState) : Prop :=
  s.totalCount = done.length ∧
  s.batch.length = s.totalCount % 10000 ∧
  s.committed.length = s.totalCount / 10000 ∧
  (∀ b ∈ s.committed, b.length = 10000) ∧
  s.committed.flatten ++ s.batch = done

/-- Applying one `Set(key, value)` to the destination store, modelled as an
association list: any existing entry for the key is superseded. -/
def applyRecord (m : List Record) (r : Record) : List Record :=
  m.filter (fun x => decide (¬ x.key = r.key)) ++ [r]

/-- Applying a sequence of `Set` operations, in order, to the destination
store. The destination contents after `migrateDB` are
`dbApply [] (committed batches).flatten`. -/
def dbApply (m rs : List Record) : List Record :=
  rs.foldl applyRecord m

/-- Look up the value stored under a key in the destination store. -/
def lookupKey (m : List Record) (k : List Nat) : Option (List Nat) :=
  (m.find? (fun x => decide (x.key = k))).map Record.value

/-- Error oracles for one `migrateDB` call. `setErr i` is the outcome of
`batch.Set` for the record at (0-based) iterator position `i`; `commitErr j`
and `closeErr j` are the outcomes of `batch.WriteSync()` and `batch.Close()`
for the (0-based) `j`-th commit (the final commit of the remaining batch
has index `committed.length` at that point). -/
structure MigEnv where
  openOldErr : Option String
  openNewErr : Option String
  iterErr : Option String
  setErr : Nat → Option String
  commitErr : Nat → Option String
  closeErr : Nat → Option String

/-- The oracle under which every external call succeeds. -/
def noErrEnv : MigEnv :=
  ⟨none, none, none, fun _ => none, fun _ => none, fun _ => none⟩

/-- The loop of `migrateDB` with error oracles. On error it returns the
error message built by the code (`fmt.Errorf`) together with the state at
the moment of the abort, whose `totalCount` is the number of records that
were processed (added to a batch). A commit (or close) failure happens
after the record at the 10000-boundary was added and counted, faithfully
to the code. -/
def migrateLoopE (env : MigEnv) :
    List Record → MigState → Except (String × MigState) MigState
  | [], s => .ok s
  | r :: rs, s =>
      match env.setErr s.totalCount with
      | some e => .error ("batch set: " ++ e, s)
      | none =>
          if (s.totalCount + 1) % 10000 = 0 then
            match env.commitErr s.committed.length with
            | some e =>
                .error ("commit batch: " ++ e,
                  ⟨s.committed, s.batch ++ [r], s.totalCount + 1⟩)
            | none =>
                match env.closeErr s.committed.length with
                | some e =>
                    .error ("close batch: " ++ e,
                      ⟨s.committed, s.batch ++ [r], s.totalCount + 1⟩)
                | none => migrateLoopE env rs (migrateStep s r)
          else migrateLoopE env rs (migrateStep s r)

/-- Full outcome of one `migrateDB` call: the Go return value, the number
of records processed (added to a batch), the batches that were durably
committed, and — on success only — the printed summary pair
(total record count, elapsed duration). -/
structure MigOutcome where
  result : Except String Unit
  processed : Nat
  committed : List (List Record)
  summary : Option (Nat × Nat)

/-- `migrateDB` with error oracles. `startClock` is the wall-clock value
read by `startTime := time.Now()` (after the initial batch is created and
the progress reporter is started, before the first record is processed);
`endClock` is the value read by `time.Since(startTime)` after the final
commit, so the printed elapsed duration is `endClock - startClock`. -/
def migrateDBRun (env : MigEnv) (name : String) (records : List Record)
    (startClock endClock : Nat) : MigOutcome :=
  match env.openOldErr with
  | some e => ⟨.error ("open " ++ name ++ ": " ++ e), 0, [], none⟩
  | none =>
  match env.openNewErr with
  | some e => ⟨.error ("open " ++ name ++ ": " ++ e), 0, [], none⟩
  | none =>
  match env.iterErr with
  | some e => ⟨.error ("iterator: " ++ e), 0, [], none⟩
  | none =>
  match migrateLoopE env records initState with
  | .error (msg, s) => ⟨.error msg, s.totalCount, s.committed, none⟩
  | .ok s =>
      match env.commitErr s.committed.length with
      | some e => ⟨.error ("commit batch: " ++ e), s.totalCount, s.committed, none⟩
      | none =>
      match env.closeErr s.committed.length with
      | some e => ⟨.error ("close batch: " ++ e), s.totalCount, s.committed, none⟩
      | none =>
          ⟨.ok (), s.totalCount, s.committed ++ [s.batch],
            some (s.totalCount, endClock - startClock)⟩

/-! ## The orchestrator (`main`) -/

/-- A top-level entry of a directory: its name, whether it is itself a
directory, and its contents as an opaque blob. -/
structure Entry where
  name : String
  isDir : Bool
  data : List Nat
deriving DecidableEq

/-- Result of the `os.Stat` existence probe for the light-client store:
the path exists, does not exist, or `Stat` itself returned some other
error. The code tests `err == nil`, so `notFound` and `statError` take
the same branch (the store is skipped). -/
inductive StatRes where
  | found
  | notFound
  | statError
deriving DecidableEq

/-- The message of a Go `*PathError` (as returned by `os.MkdirAll`,
`os.RemoveAll`, `os.ReadDir`): operation, path, underlying cause. A `%v`
of such an error therefore always names the offending path. -/
def pathErrMsg (op path cause : String) : String :=
  op ++ " " ++ path ++ ": " ++ cause

/-- The fatal message `main` prints when migrating a store fails. -/
def migFailMsg (name e : String) : String :=
  "Failed to migrate " ++ name ++ " database: " ++ e ++
    ". Please fix the error and restart."

/-- The four fixed logical stores, in migration order. -/
def cometBFTDatabases : List String := ["blockstore", "state", "tx_index", "evidence"]

/-- The optional store probed with `os.Stat`. -/
def lightClientDBName : String := "light-client-db"

/-- Environment (error oracles and external inputs) for one run of `main`.
`migResult s` is the value `migrateDB` returns for store `s` (`none` = nil);
`removeCause n` / `renameCause n` are the outcomes of `os.RemoveAll` /
`os.Rename` for the staged entry named `n` during the swap;
`stagingEntries` is what `os.ReadDir` lists in the staging directory at
swap time. -/
structure OrchEnv where
  dataDir : String
  tempDir : String
  mkdirCause : Option String
  migResult : String → Option String
  lightStat : StatRes
  confirmed : Bool
  readDirCause : Option String
  stagingEntries : List Entry
  removeCause : String → Option String
  renameCause : String → Option String
  removeTempCause : Option String

/-- Observable outcome of a run of `main`: the process exit code, the
fatal message (if any), the stores whose migration completed, the final
top-level entries of the live data directory, and the staging directory
(`none` once it has been removed). -/
structure Outcome where
  exitCode : Nat
  fatalMsg : Option String
  migratedStores : List String
  live : List Entry
  staging : Option (List Entry)
deriving DecidableEq

/-- Does the live directory contain a top-level entry with this name? -/
def hasName (l : List Entry) (n : String) : Bool :=
  l.any (fun x => decide (x.name = n))

/-- Remove every top-level entry with this name (`os.RemoveAll`). -/
def dropName (l : List Entry) (n : String) : List Entry :=
  l.filter (fun x => decide (¬ x.name = n))

/-- The first top-level entry with this name, if any. -/
def findEntry (l : List Entry) (n : String) : Option Entry :=
  l.find? (fun x => decide (x.name = n))

/-- Migrate a list of stores in order, stopping at the first failure.
Returns the stores migrated so far and the fatal message, if any. -/
def migrateSeq (mig : String → Option String) (acc : List String) :
    List String → List String × Option String
  | [] => (acc, none)
  | n :: ns =>
      match mig n with
      | some e => (acc, some (migFailMsg n e))
      | none => migrateSeq mig (acc ++ [n]) ns

/-- Step 2 of `main`: migrate the light-client store when the `os.Stat`
probe returns nil; on any `Stat` error (including plain absence) the store
is skipped without an error. -/
def lightStep (env : OrchEnv) (done : List String) :
    List String × Option String :=
  if env.lightStat = StatRes.found then
    match env.migResult lightClientDBName with
    | some e => (done, some (migFailMsg lightClientDBName e))
    | none => (done ++ [lightClientDBName], none)
  else (done, none)

/-- The swap loop of `main`: for each staging entry, in `ReadDir` order,
skip it unless it is a directory; otherwise remove a same-named live entry
first (only when one exists) and rename the staged entry into the live
directory. On failure it returns the fatal message together with the
staging and live entries at that moment. The success value is the
remaining staging entries and the new live entries. -/
def swapLoop (env : OrchEnv) :
    List Entry → List Entry → List Entry →
      Except (String × List Entry × List Entry) (List Entry × List Entry)
  | [], staging, live => .ok (staging, live)
  | e :: es, staging, live =>
      if e.isDir then
        match (if hasName live e.name then env.removeCause e.name else none) with
        | some c =>
            .error ("remove all: " ++
              pathErrMsg "remove" (env.dataDir ++ "/" ++ e.name) c, staging, live)
        | none =>
            match env.renameCause e.name with
            | some c =>
                .error ("rename " ++ e.name ++ ": " ++ c, staging,
                  dropName live e.name)
            | none =>
                swapLoop env es (dropName staging e.name) (dropName live e.name ++ [e])
      else swapLoop env es staging live

/-- The pure effect of a successful swap on the live directory. -/
def swapPure (live : List Entry) : List Entry → List Entry
  | [] => live
  | e :: es =>
      if e.isDir then swapPure (dropName live e.name ++ [e]) es
      else swapPure live es

/-- Step 4 of `main`: remove the staging directory. -/
def finishRun (env : OrchEnv) (done : List String) (live : List Entry)
    (staging : List Entry) : Outcome :=
  match env.removeTempCause with
  | some c =>
      ⟨1, some ("Failed to remove the temporary directory: " ++
        pathErrMsg "remove" env.tempDir c), done, live, some staging⟩
  | none => ⟨0, none, done, live, none⟩

/-- Step 3 of `main`: the confirmation prompt and, if confirmed, the swap;
in both branches followed by removal of the staging directory. -/
def swapPhase (env : OrchEnv) (done : List String) (live : List Entry) : Outcome :=
  if env.confirmed then
    match env.readDirCause with
    | some c =>
        ⟨1, some ("read temp_dir: " ++ pathErrMsg "open" env.tempDir c),
          done, live, some env.stagingEntries⟩
    | none =>
        match swapLoop env env.stagingEntries env.stagingEntries live with
        | .error (msg, staging1, live1) => ⟨1, some msg, done, live1, some staging1⟩
        | .ok (staging1, live1) => finishRun env done live1 staging1
  else finishRun env done live env.stagingEntries

/-- One run of `main` (flag parsing aside), starting from the given live
data directory contents. Fatal errors (`fatalf`) exit with code 1. -/
def mainRun (env : OrchEnv) (live : List Entry) : Outcome :=
  match env.mkdirCause with
  | some c =>
      ⟨1, some ("Failed to create the temporary directory: " ++
        pathErrMsg "mkdir" env.tempDir c), [], live, none⟩
  | none =>
      match migrateSeq env.migResult [] cometBFTDatabases with
      | (done, some msg) => ⟨1, some msg, done, live, some env.stagingEntries⟩
      | (done, none) =>
          match lightStep env done with
          | (done1, some msg) => ⟨1, some msg, done1, live, some env.stagingEntries⟩
          | (done1, none) => swapPhase env done1 live

/-! ## The progress reporter -/

/-- The two events the progress goroutine can receive in its `select`:
an explicit count on `progressChan`, or a ticker tick (on which it reads
the shared `totalCount`, here passed as the current value). -/
inductive ReporterInput where
  | progress (count : Nat)
  | tick (sharedCount : Nat)

/-- What the goroutine's loop body decides after handling one event. -/
inductive ReporterCmd where
  | continueLoop
  | exitLoop
deriving DecidableEq

/-- The single-line progress message (printed with a leading carriage
return so it overwrites the previous rendering). -/
def progressLine (n : Nat) : String :=
  "Migrated " ++ toString n ++ " records..."

/-- One iteration of the progress goroutine's `for { select { ... } }`:
both cases print the latest count and loop again; no case exits. -/
def reporterHandle : ReporterInput → String × ReporterCmd
  | .progress n => (progressLine n, .continueLoop)
  | .tick n => (progressLine n, .continueLoop)

/-- Teardown actions that can release the progress goroutine or its
resources when `migrateDB` returns. -/
inductive ReporterEvent where
  | tickerStop
  | channelClose
  | stopSignal
deriving DecidableEq

/-- The teardown `migrateDB` actually performs when it returns: only the
deferred `progressTicker.Stop()`. The channel `progressChan` is never
closed and no stop signal is ever sent to the goroutine. -/
def migrateDBTeardown : List ReporterEvent := [ReporterEvent.tickerStop]

/-- A teardown releases the goroutine only if it closes the channel or
signals it to stop; stopping the ticker alone leaves the goroutine
blocked in its `select` forever. -/
def reporterReleased (t : List ReporterEvent) : Bool :=
  t.contains ReporterEvent.channelClose || t.contains ReporterEvent.stopSignal

/-! ## Concrete environments used as witnesses -/

/-- Opening the source store fails. -/
def onlyOpenErrEnv : MigEnv :=
  ⟨some "resource temporarily unavailable", none, none,
    fun _ => none, fun _ => none, fun _ => none⟩

/-- Constructing the iterator fails. -/
def onlyIterErrEnv : MigEnv :=
  ⟨none, none, some "iterator construction failed",
    fun _ => none, fun _ => none, fun _ => none⟩

/-- `batch.Set` fails for the record at position 1. -/
def setFailEnv : MigEnv :=
  ⟨none, none, none, fun j => if j = 1 then some "disk full" else none,
    fun _ => none, fun _ => none⟩

/-- The first commit (`batch.WriteSync`) fails. -/
def commitFailEnv : MigEnv :=
  ⟨none, none, none, fun _ => none,
    fun j => if j = 0 then some "io error" else none, fun _ => none⟩

/-- A three-record source store. -/
def threeRecords : List Record := [⟨[0], [10]⟩, ⟨[1], [11]⟩, ⟨[2], [12]⟩]

/-- A source store with exactly 10000 records. -/
def manyRecords : List Record := List.replicate 10000 ⟨[7], [9]⟩

/-- An orchestrator run in which migrating the second store fails. -/
def failStateEnv : OrchEnv :=
  ⟨"DATA", "TMP", none, fun m => if m = "state" then some "boom" else none,
    StatRes.notFound, false, none, [], fun _ => none, fun _ => none, none⟩

/-- A sample live data directory: one store directory and one plain file. -/
def liveSample : List Entry :=
  [⟨"blockstore", true, [1]⟩, ⟨"config", false, [2]⟩]

/-- A fully successful run in which the operator declines the backup
confirmation. -/
def declinedEnv : OrchEnv :=
  ⟨"DATA", "TMP", none, fun _ => none, StatRes.found, false, none,
    [⟨"blockstore", true, [9]⟩], fun _ => none, fun _ => none, none⟩

/-- A fully successful confirmed run; the staging directory holds two
store directories and one plain file. -/
def confirmedEnv : OrchEnv :=
  ⟨"DATA", "TMP", none, fun _ => none, StatRes.notFound, true, none,
    [⟨"blockstore", true, [9]⟩, ⟨"state", true, [8]⟩, ⟨"LOCK", false, [7]⟩],
    fun _ => none, fun _ => none, none⟩

/-- A run in which the `os.Stat` probe for the light-client store fails
with an error other than plain absence. -/
def statErrEnv : OrchEnv :=
  ⟨"DATA", "TMP", none, fun _ => none, StatRes.statError, false, none, [],
    fun _ => none, fun _ => none, none⟩

/-- A run in which creating the staging directory fails. -/
def mkdirFailEnv : OrchEnv :=
  ⟨"DATA", "TMP", some "permission denied", fun _ => none, StatRes.notFound,
    false, none, [], fun _ => none, fun _ => none, none⟩

/-- A confirmed run in which removing an existing live entry fails. -/
def removeFailEnv : OrchEnv :=
  ⟨"DATA", "TMP", none, fun _ => none, StatRes.notFound, true, none,
    [⟨"blockstore", true, [9]⟩], fun _ => some "permission denied",
    fun _ => none, none⟩

/-- A confirmed run in which renaming a staged entry fails. -/
def renameFailEnv : OrchEnv :=
  ⟨"DATA", "TMP", none, fun _ => none, StatRes.notFound, true, none,
    [⟨"state", true, [8]⟩], fun _ => none,
    fun _ => some "cross-device link", none⟩

/-- A declined run in which removing the staging directory fails. -/
def removeTempFailEnv : OrchEnv :=
  ⟨"DATA", "TMP", none, fun _ => none, StatRes.notFound, false, none, [],
    fun _ => none, fun _ => none, some "directory not empty"⟩

/-! ## Theorems -/

theorem inv_init : Inv [] initState := by
  simp [Inv, initState]

theorem inv_step {done : List Record} {s : MigState} (r : Record)
    (h : Inv done s) : Inv (done ++ [r]) (migrateStep s r) := by
  obtain ⟨hc, hb, hl, hall, hj⟩ := h
  unfold migrateStep
  split
  case isTrue hmod =>
    unfold Inv
    refine ⟨?_, ?_, ?_, ?_, ?_⟩
    · simp [hc]
    · simp only [List.length_nil]
      omega
    · simp only [List.length_append, List.length_cons, List.length_nil]
      omega
    · intro b hmem
      rcases List.mem_append.mp hmem with hmem | hmem
      · exact hall b hmem
      · simp only [List.mem_singleton] at hmem
        subst hmem
        simp only [List.length_append, List.length_cons, List.length_nil]
        omega
    · show (s.committed ++ [s.batch ++ [r]]).flatten ++ [] = done ++ [r]
      calc (s.committed ++ [s.batch ++ [r]]).flatten ++ ([] : List Record)
          = s.committed.flatten ++ (s.batch ++ [r]) := by simp
        _ = (s.committed.flatten ++ s.batch) ++ [r] := by
              rw [List.append_assoc]
        _ = done ++ [r] := by rw [hj]
  case isFalse hmod =>
    unfold Inv
    refine ⟨?_, ?_, ?_, hall, ?_⟩
    · simp [hc]
    · simp only [List.length_append, List.length_cons, List.length_nil]
      omega
    · simp only [hl]
      omega
    · show s.committed.flatten ++ (s.batch ++ [r]) = done ++ [r]
      rw [← List.append_assoc, hj]

theorem inv_foldl (rs : List Record) :
    ∀ (done : List Record) (s : MigState), Inv done s →
      Inv (done ++ rs) (rs.foldl migrateStep s) := by
  induction rs with
  | nil => intro done s h; simpa using h
  | cons r rs ih =>
      intro done s h
      have h1 := inv_step r h
      have h2 := ih (done ++ [r]) (migrateStep s r) h1
      simpa using h2

theorem inv_migrateLoop (records : List Record) :
    Inv records (migrateLoop records) := by
  have h := inv_foldl records [] initState inv_init
  simpa [migrateLoop] using h

theorem dbApply_eq_append (rs : List Record) :
    ∀ (m : List Record), (∀ x ∈ m, ∀ r ∈ rs, x.key ≠ r.key) →
      (rs.map Record.key).Nodup → dbApply m rs = m ++ rs := by
  induction rs with
  | nil => intro m _ _; simp [dbApply]
  | cons r rs ih =>
      intro m hdisj hnd
      have hfilter : m.filter (fun x => ! decide (x.key = r.key)) = m := by
        apply List.filter_eq_self.mpr
        intro x hx
        simpa using hdisj x hx r (by simp)
      have hstep : dbApply m (r :: rs) = dbApply (m ++ [r]) rs := by
        simp [dbApply, applyRecord, hfilter]
      rw [hstep, ih (m ++ [r]) ?_ ?_]
      · simp
      · intro x hx r' hr'
        rcases List.mem_append.mp hx with hx | hx
        · exact hdisj x hx r' (by simp [hr'])
        · simp only [List.mem_singleton] at hx
          subst hx
          simp only [List.map_cons, List.nodup_cons] at hnd
          intro hkey
          exact hnd.1 (hkey ▸ List.mem_map_of_mem Record.key hr')
      · simp only [List.map_cons, List.nodup_cons] at hnd
        exact hnd.2

theorem lookupKey_iff (l : List Record) (hnd : (l.map Record.key).Nodup)
    (k v : List Nat) :
    (⟨k, v⟩ : Record) ∈ l ↔ lookupKey l k = some v := by
  induction l with
  | nil => simp [lookupKey]
  | cons x l ih =>
      simp only [List.map_cons, List.nodup_cons] at hnd
      by_cases hk : x.key = k
      · have hfind : lookupKey (x :: l) k = some x.value := by
          simp [lookupKey, List.find?, hk]
        rw [hfind]
        constructor
        · intro hmem
          rcases List.mem_cons.mp hmem with hmem | hmem
          · rw [← hmem]
          · exact absurd (hk ▸ List.mem_map_of_mem Record.key hmem) hnd.1
        · intro hv
          have hxv : x.value = v := by simpa using hv
          have hx : x = ⟨k, v⟩ := by
            cases x
            simp_all
          rw [hx]
          exact List.mem_cons_self _ _
      · have hfind : lookupKey (x :: l) k = lookupKey l k := by
          simp [lookupKey, List.find?, hk]
        rw [hfind, ← ih hnd.2]
        constructor
        · intro hmem
          rcases List.mem_cons.mp hmem with hmem | hmem
          · exact absurd (congrArg Record.key hmem.symm) hk
          · exact hmem
        · intro hmem
          exact List.mem_cons_of_mem x hmem

/-- Claim C1: after a successful run of `migrateDB`, the concatenation of
the committed batches reproduces the source iterator's order exactly; and
the destination store (the batches' `Set` operations applied in order)
contains, for each record of the source, the identical key mapped to the
identical value, and no other keys. -/
theorem C1_complete_and_ordered (records : List Record)
    (hnd : (records.map Record.key).Nodup) :
    (migrateDB records).1.flatten = records ∧
    ∀ k v, (⟨k, v⟩ : Record) ∈ records ↔
      lookupKey (dbApply [] (migrateDB records).1.flatten) k = some v := by
  obtain ⟨hc, hb, hl, hall, hj⟩ := inv_migrateLoop records
  have hflat : (migrateDB records).1.flatten = records := by
    simp [migrateDB, hj]
  refine ⟨hflat, ?_⟩
  intro k v
  rw [hflat]
  rw [dbApply_eq_append records [] (by simp) hnd]
  simp only [List.nil_append]
  exact lookupKey_iff records hnd k v

/-- Claim C1 witness. -/
theorem C1_complete_and_ordered_witness :
    ((List.map Record.key [⟨[1], [2]⟩, ⟨[3], [4]⟩]).Nodup) ∧
    ((migrateDB [⟨[1], [2]⟩, ⟨[3], [4]⟩]).1.flatten = [⟨[1], [2]⟩, ⟨[3], [4]⟩] ∧
      ∀ k v, (⟨k, v⟩ : Record) ∈ [(⟨[1], [2]⟩ : Record), ⟨[3], [4]⟩] ↔
        lookupKey (dbApply [] (migrateDB [⟨[1], [2]⟩, ⟨[3], [4]⟩]).1.flatten) k = some v) :=
  ⟨by decide, C1_complete_and_ordered [⟨[1], [2]⟩, ⟨[3], [4]⟩] (by decide)⟩

/-- Claim C2: for a source store with exactly `10000 * k + r` records
(`r < 10000`), `migrateDB` commits exactly `k` full batches of 10000
records followed by one final batch of `r` records — the final commit
happens even when `r = 0`; an empty source yields exactly one empty
commit and a zero count. -/
theorem C2_batch_boundaries (records : List Record) (k r : Nat)
    (h : records.length = 10000 * k + r) (hr : r < 10000) :
    (migrateDB records).2 = records.length ∧
    (migrateDB records).1.length = k + 1 ∧
    (∀ b ∈ (migrateDB records).1.dropLast, b.length = 10000) ∧
    (∃ lb, (migrateDB records).1.getLast? = some lb ∧ lb.length = r) ∧
    (records = [] → migrateDB records = ([[]], 0)) := by
  obtain ⟨hc, hb, hl, hall, hj⟩ := inv_migrateLoop records
  refine ⟨hc, ?_, ?_, ?_, ?_⟩
  · simp only [migrateDB, List.length_append, List.length_cons, List.length_nil]
    omega
  · intro b hmem
    have hdrop : (migrateDB records).1.dropLast = (migrateLoop records).committed := by
      simp [migrateDB]
    rw [hdrop] at hmem
    exact hall b hmem
  · refine ⟨(migrateLoop records).batch, ?_, ?_⟩
    · simp [migrateDB]
    · omega
  · intro hempty
    subst hempty
    rfl

/-- Claim C2 witness: the empty source store yields zero records and
exactly one, empty, commit. -/
theorem C2_batch_boundaries_witness :
    (List.length ([] : List Record) = 10000 * 0 + 0) ∧
    ((migrateDB []).2 = List.length ([] : List Record) ∧
      (migrateDB []).1.length = 0 + 1 ∧
      (∀ b ∈ (migrateDB ([] : List Record)).1.dropLast, b.length = 10000) ∧
      (∃ lb, (migrateDB ([] : List Record)).1.getLast? = some lb ∧ lb.length = 0) ∧
      (([] : List Record) = [] → migrateDB [] = ([[]], 0))) :=
  ⟨by decide, C2_batch_boundaries [] 0 0 (by decide) (by decide)⟩

theorem migrateStep_totalCount (s : MigState) (r : Record) :
    (migrateStep s r).totalCount = s.totalCount + 1 := by
  unfold migrateStep
  split <;> rfl

theorem migrateLoopE_ok_totalCount (env : MigEnv) (rs : List Record) :
    ∀ (s s' : MigState), migrateLoopE env rs s = .ok s' →
      s'.totalCount = s.totalCount + rs.length := by
  induction rs with
  | nil =>
      intro s s' h
      simp only [migrateLoopE] at h
      cases h
      simp
  | cons r rs ih =>
      intro s s' h
      simp only [migrateLoopE] at h
      cases hset : env.setErr s.totalCount with
      | some e => rw [hset] at h; cases h
      | none =>
          rw [hset] at h
          by_cases hmod : (s.totalCount + 1) % 10000 = 0
          · rw [if_pos hmod] at h
            cases hcom : env.commitErr s.committed.length with
            | some e => rw [hcom] at h; cases h
            | none =>
                rw [hcom] at h
                cases hclo : env.closeErr s.committed.length with
                | some e => rw [hclo] at h; cases h
                | none =>
                    rw [hclo] at h
                    have := ih (migrateStep s r) s' h
                    rw [this, migrateStep_totalCount]
                    simp only [List.length_cons]
                    omega
          · rw [if_neg hmod] at h
            have := ih (migrateStep s r) s' h
            rw [this, migrateStep_totalCount]
            simp only [List.length_cons]
            omega

/-- If no external call fails while the records of `xs` are processed,
the fallible loop runs through `xs` exactly like the error-free loop and
continues with `ys`. -/
theorem migrateLoopE_append (env : MigEnv) (xs : List Record) :
    ∀ (ys done : List Record) (s : MigState), Inv done s →
      (∀ j, s.totalCount ≤ j → j < s.totalCount + xs.length →
        env.setErr j = none) →
      (∀ j, s.totalCount < 10000 * (j + 1) →
        10000 * (j + 1) ≤ s.totalCount + xs.length →
        env.commitErr j = none ∧ env.closeErr j = none) →
      migrateLoopE env (xs ++ ys) s = migrateLoopE env ys (xs.foldl migrateStep s) := by
  induction xs with
  | nil => intro ys done s _ _ _; simp
  | cons x xs ih =>
      intro ys done s hinv hset hcc
      obtain ⟨hc, hb, hl, hall, hj⟩ := hinv
      have hset0 : env.setErr s.totalCount = none := by
        apply hset
        · exact Nat.le_refl _
        · simp only [List.length_cons]; omega
      have hcons : (x :: xs) ++ ys = x :: (xs ++ ys) := rfl
      rw [hcons]
      show migrateLoopE env (x :: (xs ++ ys)) s = _
      by_cases hmod : (s.totalCount + 1) % 10000 = 0
      · have hcc0 : env.commitErr (s.totalCount / 10000) = none ∧
            env.closeErr (s.totalCount / 10000) = none := by
          apply hcc
          · omega
          · simp only [List.length_cons]; omega
        have hstep : migrateLoopE env (x :: (xs ++ ys)) s =
            migrateLoopE env (xs ++ ys) (migrateStep s x) := by
          simp only [migrateLoopE, hset0, if_pos hmod, hl, hcc0.1, hcc0.2]
        rw [hstep]
        rw [ih ys (done ++ [x]) (migrateStep s x) (inv_step x ⟨hc, hb, hl, hall, hj⟩) ?_ ?_]
        · simp
        · intro j h1 h2
          apply hset
          · rw [migrateStep_totalCount] at h1; omega
          · rw [migrateStep_totalCount] at h2
            simp only [List.length_cons]
            omega
        · intro j h1 h2
          apply hcc
          · rw [migrateStep_totalCount] at h1
            -- the commit at the boundary just crossed has index
            -- s.totalCount / 10000 and already happened
            omega
          · rw [migrateStep_totalCount] at h2
            simp only [List.length_cons]
            omega
      · have hstep : migrateLoopE env (x :: (xs ++ ys)) s =
            migrateLoopE env (xs ++ ys) (migrateStep s x) := by
          simp only [migrateLoopE, hset0, if_neg hmod]
        rw [hstep]
        rw [ih ys (done ++ [x]) (migrateStep s x) (inv_step x ⟨hc, hb, hl, hall, hj⟩) ?_ ?_]
        · simp
        · intro j h1 h2
          apply hset
          · rw [migrateStep_totalCount] at h1; omega
          · rw [migrateStep_totalCount] at h2
            simp only [List.length_cons]
            omega
        · intro j h1 h2
          apply hcc
          · rw [migrateStep_totalCount] at h1; omega
          · rw [migrateStep_totalCount] at h2
            simp only [List.length_cons]
            omega

/-- A `batch.Set` failure at position `i`, every call before it
succeeding, aborts the loop at that exact point: the error state is the
error-free state after `i` records, so exactly `i` records were processed
and only the first `i` records ever reached a batch. -/
theorem migrateLoopE_set_failure (env : MigEnv) (records : List Record)
    (i : Nat) (e : String)
    (hi : i < records.length)
    (hset : env.setErr i = some e)
    (hbefore : ∀ j, j < i → env.setErr j = none)
    (hcc : ∀ j, 10000 * (j + 1) ≤ i → env.commitErr j = none ∧ env.closeErr j = none) :
    migrateLoopE env records initState =
      .error ("batch set: " ++ e, migrateLoop (records.take i)) ∧
    (migrateLoop (records.take i)).totalCount = i ∧
    (migrateLoop (records.take i)).committed.flatten ++
      (migrateLoop (records.take i)).batch = records.take i := by
  have hlen : (records.take i).length = i := by
    rw [List.length_take]; omega
  obtain ⟨hc, hb, hl, hall, hj⟩ := inv_migrateLoop (records.take i)
  have htc : (migrateLoop (records.take i)).totalCount = i := by rw [hc, hlen]
  have happ : migrateLoopE env records initState =
      migrateLoopE env (records.drop i) (migrateLoop (records.take i)) := by
    conv_lhs => rw [← List.take_append_drop i records]
    apply migrateLoopE_append env (records.take i) (records.drop i) [] initState inv_init
    · intro j h1 h2
      apply hbefore
      simp only [initState, hlen] at h2
      omega
    · intro j h1 h2
      apply hcc
      simp only [initState, hlen] at h2
      omega
  have hdrop : records.drop i = records[i] :: records.drop (i + 1) :=
    List.drop_eq_getElem_cons hi
  refine ⟨?_, htc, hj⟩
  rw [happ, hdrop]
  have hsetI : env.setErr (migrateLoop (records.take i)).totalCount = some e := by
    rw [htc]; exact hset
  simp only [migrateLoopE, hsetI]

/-- A `batch.WriteSync` failure at the `k`-th commit, every call before it
succeeding, aborts the loop right at the 10000-record boundary: exactly
`10000 * (k + 1)` records were processed and only those ever reached a
batch. -/
theorem migrateLoopE_commit_failure (env : MigEnv) (records : List Record)
    (k : Nat) (e : String)
    (hk : 10000 * (k + 1) ≤ records.length)
    (hcom : env.commitErr k = some e)
    (hbefore : ∀ j, j < k → env.commitErr j = none ∧ env.closeErr j = none)
    (hset : ∀ j, j < 10000 * (k + 1) → env.setErr j = none) :
    ∃ s, migrateLoopE env records initState = .error ("commit batch: " ++ e, s) ∧
      s.totalCount = 10000 * (k + 1) ∧
      s.committed.flatten ++ s.batch = records.take (10000 * (k + 1)) := by
  set N := 10000 * (k + 1) with hN
  have hN1 : 1 ≤ N := by omega
  have hi : N - 1 < records.length := by omega
  have hlen : (records.take (N - 1)).length = N - 1 := by
    rw [List.length_take]; omega
  obtain ⟨hc, hb, hl, hall, hj⟩ := inv_migrateLoop (records.take (N - 1))
  set s0 := migrateLoop (records.take (N - 1)) with hs0
  have htc : s0.totalCount = N - 1 := by rw [hc, hlen]
  have happ : migrateLoopE env records initState =
      migrateLoopE env (records.drop (N - 1)) s0 := by
    conv_lhs => rw [← List.take_append_drop (N - 1) records]
    apply migrateLoopE_append env (records.take (N - 1)) (records.drop (N - 1))
      [] initState inv_init
    · intro j h1 h2
      apply hset
      simp only [initState, hlen] at h2
      omega
    · intro j h1 h2
      apply hbefore
      simp only [initState, hlen] at h2
      omega
  have hdrop : records.drop (N - 1) = records[N - 1] :: records.drop N := by
    have hNe : N - 1 + 1 = N := by omega
    rw [List.drop_eq_getElem_cons hi, hNe]
  have hsetN : env.setErr s0.totalCount = none := by
    rw [htc]; exact hset (N - 1) (by omega)
  have hmod : (s0.totalCount + 1) % 10000 = 0 := by
    rw [htc]; omega
  have hcl : env.commitErr s0.committed.length = some e := by
    rw [hl, htc]
    have : (N - 1) / 10000 = k := by omega
    rw [this]; exact hcom
  refine ⟨⟨s0.committed, s0.batch ++ [records[N - 1]], s0.totalCount + 1⟩, ?_, ?_, ?_⟩
  · rw [happ, hdrop]
    simp only [migrateLoopE, hsetN, if_pos hmod, hcl]
  · simp only []
    omega
  · show s0.committed.flatten ++ (s0.batch ++ [records[N - 1]]) = records.take N
    rw [← List.append_assoc, hj]
    have hNe : N - 1 + 1 = N := by omega
    conv_rhs => rw [← hNe]
    rw [List.take_succ, List.getElem?_eq_getElem hi]
    rfl

theorem migrateSeq_ok (mig : String → Option String) :
    ∀ (names acc : List String), (∀ m ∈ names, mig m = none) →
      migrateSeq mig acc names = (acc ++ names, none) := by
  intro names
  induction names with
  | nil => intro acc _; simp [migrateSeq]
  | cons n ns ih =>
      intro acc h
      have hn : mig n = none := h n (by simp)
      have hns : ∀ m ∈ ns, mig m = none := fun m hm => h m (by simp [hm])
      simp only [migrateSeq, hn]
      rw [ih (acc ++ [n]) hns]
      simp

theorem migrateSeq_fail (mig : String → Option String) :
    ∀ (pre acc post : List String) (n e : String),
      (∀ m ∈ pre, mig m = none) → mig n = some e →
      migrateSeq mig acc (pre ++ n :: post) = (acc ++ pre, some (migFailMsg n e)) := by
  intro pre
  induction pre with
  | nil =>
      intro acc post n e _ hn
      simp [migrateSeq, hn]
  | cons p ps ih =>
      intro acc post n e hpre hn
      have hp : mig p = none := hpre p (by simp)
      have hps : ∀ m ∈ ps, mig m = none := fun m hm => hpre m (by simp [hm])
      have hstep : migrateSeq mig acc ((p :: ps) ++ n :: post)
          = migrateSeq mig (acc ++ [p]) (ps ++ n :: post) := by
        simp [migrateSeq, hp]
      rw [hstep, ih (acc ++ [p]) post n e hps hn]
      simp

/-- Claim C6: on success, the per-store migrate operation delivers the
pair (total record count, elapsed duration since the clock sample taken
right after batch creation, just before the iteration loop); on failure
it returns an error and no summary pair is produced. -/
theorem C6_migrate_contract (env : MigEnv) (name : String)
    (records : List Record) (startClock endClock : Nat) :
    ((migrateDBRun env name records startClock endClock).result = .ok () →
      (migrateDBRun env name records startClock endClock).summary =
          some (records.length, endClock - startClock) ∧
      (migrateDBRun env name records startClock endClock).processed = records.length) ∧
    (∀ e, (migrateDBRun env name records startClock endClock).result = .error e →
      (migrateDBRun env name records startClock endClock).summary = none) := by
  cases h1 : env.openOldErr with
  | some e =>
      have heq : migrateDBRun env name records startClock endClock =
          ⟨.error ("open " ++ name ++ ": " ++ e), 0, [], none⟩ := by
        simp only [migrateDBRun, h1]
      rw [heq]
      exact ⟨fun h => by simp at h, fun e' _ => rfl⟩
  | none =>
  cases h2 : env.openNewErr with
  | some e =>
      have heq : migrateDBRun env name records startClock endClock =
          ⟨.error ("open " ++ name ++ ": " ++ e), 0, [], none⟩ := by
        simp only [migrateDBRun, h1, h2]
      rw [heq]
      exact ⟨fun h => by simp at h, fun e' _ => rfl⟩
  | none =>
  cases h3 : env.iterErr with
  | some e =>
      have heq : migrateDBRun env name records startClock endClock =
          ⟨.error ("iterator: " ++ e), 0, [], none⟩ := by
        simp only [migrateDBRun, h1, h2, h3]
      rw [heq]
      exact ⟨fun h => by simp at h, fun e' _ => rfl⟩
  | none =>
  cases h4 : migrateLoopE env records initState with
  | error p =>
      obtain ⟨msg, st⟩ := p
      have heq : migrateDBRun env name records startClock endClock =
          ⟨.error msg, st.totalCount, st.committed, none⟩ := by
        simp only [migrateDBRun, h1, h2, h3, h4]
      rw [heq]
      exact ⟨fun h => by simp at h, fun e' _ => rfl⟩
  | ok s =>
  cases h5 : env.commitErr s.committed.length with
  | some e =>
      have heq : migrateDBRun env name records startClock endClock =
          ⟨.error ("commit batch: " ++ e), s.totalCount, s.committed, none⟩ := by
        simp only [migrateDBRun, h1, h2, h3, h4, h5]
      rw [heq]
      exact ⟨fun h => by simp at h, fun e' _ => rfl⟩
  | none =>
  cases h6 : env.closeErr s.committed.length with
  | some e =>
      have heq : migrateDBRun env name records startClock endClock =
          ⟨.error ("close batch: " ++ e), s.totalCount, s.committed, none⟩ := by
        simp only [migrateDBRun, h1, h2, h3, h4, h5, h6]
      rw [heq]
      exact ⟨fun h => by simp at h, fun e' _ => rfl⟩
  | none =>
      have hcount : s.totalCount = records.length := by
        have := migrateLoopE_ok_totalCount env records initState s h4
        simpa [initState] using this
      have heq : migrateDBRun env name records startClock endClock =
          ⟨.ok (), s.totalCount, s.committed ++ [s.batch],
            some (s.totalCount, endClock - startClock)⟩ := by
        simp only [migrateDBRun, h1, h2, h3, h4, h5, h6]
      rw [heq]
      refine ⟨fun _ => ⟨by simp [hcount], by simp [hcount]⟩, fun e h => by simp at h⟩

/-- Claim C6 witness: a successful three-record migration reports the
pair (3, elapsed 7); a failed open produces an error and no pair. -/
theorem C6_migrate_contract_witness :
    (migrateDBRun noErrEnv "state" threeRecords 3 10).summary = some (3, 7) ∧
    (migrateDBRun noErrEnv "state" threeRecords 3 10).processed = 3 ∧
    (migrateDBRun onlyOpenErrEnv "state" threeRecords 3 10).summary = none := by
  have h1 := (C6_migrate_contract noErrEnv "state" threeRecords 3 10).1 (by rfl)
  have h2 := (C6_migrate_contract onlyOpenErrEnv "state" threeRecords 3 10).2
    ("open " ++ "state" ++ ": " ++ "resource temporarily unavailable") (by rfl)
  exact ⟨h1.1, h1.2, h2⟩

/-- Claim C5: every migration error — open, iterator construction, batch
add, commit — aborts the run immediately at the point it occurs: no
further records are processed (the abort state covers exactly the records
before the failure), and at the orchestrator level the run exits with
code 1, migrates no later store, and leaves the live data directory
unmodified. -/
theorem C5_errors_abort
    (envO envI envS envC : MigEnv) (nameO nameI : String)
    (recsO recsI recsS recsC : List Record)
    (i k : Nat) (eO eI eS eC : String)
    (oenv : OrchEnv) (live : List Entry)
    (pre post : List String) (n em : String)
    (hO : envO.openOldErr = some eO)
    (hIa : envI.openOldErr = none) (hIn : envI.openNewErr = none)
    (hIe : envI.iterErr = some eI)
    (hSi : i < recsS.length) (hSset : envS.setErr i = some eS)
    (hSbefore : ∀ j, j < i → envS.setErr j = none)
    (hScc : ∀ j, 10000 * (j + 1) ≤ i → envS.commitErr j = none ∧ envS.closeErr j = none)
    (hCk : 10000 * (k + 1) ≤ recsC.length)
    (hCcom : envC.commitErr k = some eC)
    (hCbefore : ∀ j, j < k → envC.commitErr j = none ∧ envC.closeErr j = none)
    (hCset : ∀ j, j < 10000 * (k + 1) → envC.setErr j = none)
    (hsplit : cometBFTDatabases = pre ++ n :: post)
    (hpre : ∀ m ∈ pre, oenv.migResult m = none)
    (hn : oenv.migResult n = some em)
    (hmk : oenv.mkdirCause = none) :
    ((migrateDBRun envO nameO recsO 0 0).result = .error ("open " ++ nameO ++ ": " ++ eO) ∧
      (migrateDBRun envO nameO recsO 0 0).processed = 0) ∧
    ((migrateDBRun envI nameI recsI 0 0).result = .error ("iterator: " ++ eI) ∧
      (migrateDBRun envI nameI recsI 0 0).processed = 0) ∧
    (migrateLoopE envS recsS initState =
        .error ("batch set: " ++ eS, migrateLoop (recsS.take i)) ∧
      (migrateLoop (recsS.take i)).totalCount = i ∧
      (migrateLoop (recsS.take i)).committed.flatten ++
        (migrateLoop (recsS.take i)).batch = recsS.take i) ∧
    (∃ s, migrateLoopE envC recsC initState = .error ("commit batch: " ++ eC, s) ∧
      s.totalCount = 10000 * (k + 1) ∧
      s.committed.flatten ++ s.batch = recsC.take (10000 * (k + 1))) ∧
    ((mainRun oenv live).exitCode = 1 ∧
      (mainRun oenv live).fatalMsg = some (migFailMsg n em) ∧
      (mainRun oenv live).migratedStores = pre ∧
      (mainRun oenv live).live = live ∧
      ∀ m ∈ n :: post, m ∉ (mainRun oenv live).migratedStores) := by
  refine ⟨?_, ?_, ?_, ?_, ?_⟩
  · have heq : migrateDBRun envO nameO recsO 0 0 =
        ⟨.error ("open " ++ nameO ++ ": " ++ eO), 0, [], none⟩ := by
      simp only [migrateDBRun, hO]
    rw [heq]
    exact ⟨rfl, rfl⟩
  · have heq : migrateDBRun envI nameI recsI 0 0 =
        ⟨.error ("iterator: " ++ eI), 0, [], none⟩ := by
      simp only [migrateDBRun, hIa, hIn, hIe]
    rw [heq]
    exact ⟨rfl, rfl⟩
  · exact migrateLoopE_set_failure envS recsS i eS hSi hSset hSbefore hScc
  · exact migrateLoopE_commit_failure envC recsC k eC hCk hCcom hCbefore hCset
  · have hseq : migrateSeq oenv.migResult [] cometBFTDatabases =
        ([] ++ pre, some (migFailMsg n em)) := by
      rw [hsplit]
      exact migrateSeq_fail oenv.migResult pre [] post n em hpre hn
    have heq : mainRun oenv live =
        ⟨1, some (migFailMsg n em), pre, live, some oenv.stagingEntries⟩ := by
      simp only [mainRun, hmk, hseq, List.nil_append]
    rw [heq]
    refine ⟨rfl, rfl, rfl, rfl, ?_⟩
    have hnd : (pre ++ n :: post).Nodup := by
      rw [← hsplit]
      decide
    rcases List.nodup_append.mp hnd with ⟨-, -, hdisj⟩
    intro m hm
    simp only []
    intro hmem
    exact hdisj hmem hm

/-- Claim C5 witness: a set failure at record 1 of a three-record store,
a commit failure at the first 10000-record boundary, an open failure, an
iterator failure, and an orchestrator run whose second store fails. -/
theorem C5_errors_abort_witness :
    (1 < threeRecords.length) ∧
    (migrateLoopE setFailEnv threeRecords initState =
      .error ("batch set: " ++ "disk full", migrateLoop (threeRecords.take 1)) ∧
      (migrateLoop (threeRecords.take 1)).totalCount = 1) ∧
    (∃ s, migrateLoopE commitFailEnv manyRecords initState =
      .error ("commit batch: " ++ "io error", s) ∧
      s.totalCount = 10000 * (0 + 1) ∧
      s.committed.flatten ++ s.batch = manyRecords.take (10000 * (0 + 1))) ∧
    (migrateDBRun onlyOpenErrEnv "blockstore" threeRecords 0 0).result =
      .error ("open " ++ "blockstore" ++ ": " ++ "resource temporarily unavailable") ∧
    (migrateDBRun onlyIterErrEnv "blockstore" threeRecords 0 0).result =
      .error ("iterator: " ++ "iterator construction failed") ∧
    (mainRun failStateEnv []).exitCode = 1 ∧
    (mainRun failStateEnv []).migratedStores = ["blockstore"] ∧
    (mainRun failStateEnv []).live = [] := by
  have h := C5_errors_abort onlyOpenErrEnv onlyIterErrEnv setFailEnv commitFailEnv
    "blockstore" "blockstore" threeRecords threeRecords threeRecords manyRecords
    1 0 "resource temporarily unavailable" "iterator construction failed"
    "disk full" "io error" failStateEnv [] ["blockstore"] ["tx_index", "evidence"]
    "state" "boom"
    rfl rfl rfl rfl
    (by decide)
    rfl
    (by intro j hj; interval_cases j; rfl)
    (by intro j hj; omega)
    (by rw [manyRecords, List.length_replicate])
    rfl
    (by intro j hj; omega)
    (by intro j hj; rfl)
    (by decide)
    (by intro m hm; simp only [List.mem_singleton] at hm; subst hm; rfl)
    rfl
    rfl
  exact ⟨by decide, ⟨h.2.2.1.1, h.2.2.1.2.1⟩, h.2.2.2.1, h.1.1, h.2.1.1,
    h.2.2.2.2.1, h.2.2.2.2.2.2.1, h.2.2.2.2.2.2.2.1⟩

theorem mem_dropName {l : List Entry} {n : String} {x : Entry}
    (h : x ∈ dropName l n) : x ∈ l ∧ x.name ≠ n := by
  simp only [dropName, List.mem_filter, decide_eq_true_eq] at h
  exact h

theorem findEntry_dropName_ne (l : List Entry) (m n : String) (h : m ≠ n) :
    findEntry (dropName l m) n = findEntry l n := by
  induction l with
  | nil => rfl
  | cons x l ih =>
      by_cases hx : x.name = m
      · have h1 : dropName (x :: l) m = dropName l m := by
          simp [dropName, List.filter_cons, hx]
        have hxn : ¬ x.name = n := by rw [hx]; exact h
        have h2 : findEntry (x :: l) n = findEntry l n := by
          simp [findEntry, List.find?, hxn]
        rw [h1, h2, ih]
      · have h1 : dropName (x :: l) m = x :: dropName l m := by
          simp [dropName, List.filter_cons, hx]
        rw [h1]
        by_cases hxn : x.name = n
        · simp [findEntry, List.find?, hxn]
        · have h2 : findEntry (x :: dropName l m) n = findEntry (dropName l m) n := by
            simp [findEntry, List.find?, hxn]
          have h3 : findEntry (x :: l) n = findEntry l n := by
            simp [findEntry, List.find?, hxn]
          rw [h2, h3, ih]

theorem findEntry_dropName_self (l : List Entry) (n : String) :
    findEntry (dropName l n) n = none := by
  unfold findEntry
  rw [List.find?_eq_none]
  intro x hx
  have hne := (mem_dropName hx).2
  simp [hne]

theorem findEntry_append_of_none (l1 : List Entry) :
    ∀ (l2 : List Entry) (n : String), findEntry l1 n = none →
      findEntry (l1 ++ l2) n = findEntry l2 n := by
  induction l1 with
  | nil => intro l2 n _; rfl
  | cons x l ih =>
      intro l2 n h
      unfold findEntry at h
      rw [List.find?_eq_none] at h
      have hx : ¬ x.name = n := by simpa using h x (by simp)
      have hl : findEntry l n = none := by
        unfold findEntry
        rw [List.find?_eq_none]
        intro y hy
        exact h y (by simp [hy])
      have h1 : findEntry ((x :: l) ++ l2) n = findEntry (l ++ l2) n := by
        simp [findEntry, List.find?, hx]
      rw [h1, ih l2 n hl]

theorem findEntry_append_of_some (l1 : List Entry) :
    ∀ (l2 : List Entry) (n : String) (v : Entry), findEntry l1 n = some v →
      findEntry (l1 ++ l2) n = some v := by
  induction l1 with
  | nil => intro l2 n v h; cases h
  | cons x l ih =>
      intro l2 n v h
      by_cases hx : x.name = n
      · have hsome : findEntry (x :: l) n = some x := by
          simp [findEntry, List.find?, hx]
        rw [hsome] at h
        have hgoal : findEntry ((x :: l) ++ l2) n = some x := by
          simp [findEntry, List.find?, hx]
        rw [hgoal, h]
      · have h3 : findEntry (x :: l) n = findEntry l n := by
          simp [findEntry, List.find?, hx]
        rw [h3] at h
        have h1 : findEntry ((x :: l) ++ l2) n = findEntry (l ++ l2) n := by
          simp [findEntry, List.find?, hx]
        rw [h1, ih l2 n v h]

theorem findEntry_swapPure_ne (es : List Entry) :
    ∀ (l : List Entry) (n : String), (∀ e ∈ es, e.name ≠ n) →
      findEntry (swapPure l es) n = findEntry l n := by
  induction es with
  | nil => intro l n _; rfl
  | cons e es ih =>
      intro l n h
      have he : e.name ≠ n := h e (by simp)
      by_cases hd : e.isDir
      · have h1 : swapPure l (e :: es) = swapPure (dropName l e.name ++ [e]) es := by
          simp [swapPure, hd]
        rw [h1, ih _ n (fun x hx => h x (by simp [hx]))]
        have h2 : findEntry (dropName l e.name) n = findEntry l n :=
          findEntry_dropName_ne l e.name n he
        cases hfind : findEntry (dropName l e.name) n with
        | some v =>
            rw [findEntry_append_of_some _ _ _ _ hfind, ← h2, hfind]
        | none =>
            rw [findEntry_append_of_none _ _ _ hfind]
            have hsing : findEntry [e] n = none := by
              simp [findEntry, List.find?, he]
            rw [hsing, ← h2, hfind]
      · have h1 : swapPure l (e :: es) = swapPure l es := by
          simp [swapPure, hd]
        rw [h1, ih l n (fun x hx => h x (by simp [hx]))]

theorem findEntry_swapPure_mem (es : List Entry) :
    ∀ (l : List Entry) (e : Entry), (es.map Entry.name).Nodup → e ∈ es →
      e.isDir = true → findEntry (swapPure l es) e.name = some e := by
  induction es with
  | nil => intro l e _ he _; cases he
  | cons x es ih =>
      intro l e hnd he hd
      simp only [List.map_cons, List.nodup_cons] at hnd
      rcases List.mem_cons.mp he with he | he
      · subst he
        have h1 : swapPure l (e :: es) = swapPure (dropName l e.name ++ [e]) es := by
          simp [swapPure, hd]
        rw [h1]
        have hnames : ∀ x ∈ es, x.name ≠ e.name := by
          intro x hx hxe
          exact hnd.1 (hxe ▸ List.mem_map_of_mem Entry.name hx)
        rw [findEntry_swapPure_ne es _ e.name hnames]
        rw [findEntry_append_of_none _ _ _ (findEntry_dropName_self l e.name)]
        simp [findEntry, List.find?]
      · by_cases hx : x.isDir
        · have h1 : swapPure l (x :: es) = swapPure (dropName l x.name ++ [x]) es := by
            simp [swapPure, hx]
          rw [h1]
          exact ih _ e hnd.2 he hd
        · have h1 : swapPure l (x :: es) = swapPure l es := by
            simp [swapPure, hx]
          rw [h1]
          exact ih l e hnd.2 he hd

theorem mem_swapPure (es : List Entry) :
    ∀ (l : List Entry) (y : Entry), y ∈ swapPure l es →
      y ∈ l ∨ (y ∈ es ∧ y.isDir = true) := by
  induction es with
  | nil => intro l y h; exact Or.inl h
  | cons e es ih =>
      intro l y h
      by_cases hd : e.isDir
      · have h1 : swapPure l (e :: es) = swapPure (dropName l e.name ++ [e]) es := by
          simp [swapPure, hd]
        rw [h1] at h
        rcases ih _ y h with h | h
        · rcases List.mem_append.mp h with h | h
          · exact Or.inl (mem_dropName h).1
          · simp only [List.mem_singleton] at h
            subst h
            exact Or.inr ⟨by simp, hd⟩
        · exact Or.inr ⟨by simp [h.1], h.2⟩
      · have h1 : swapPure l (e :: es) = swapPure l es := by
          simp [swapPure, hd]
        rw [h1] at h
        rcases ih l y h with h | h
        · exact Or.inl h
        · exact Or.inr ⟨by simp [h.1], h.2⟩

theorem swapPure_name_unique (es : List Entry) :
    ∀ (l : List Entry) (e x : Entry), (es.map Entry.name).Nodup → e ∈ es →
      e.isDir = true → x ∈ swapPure l es → x.name = e.name → x = e := by
  induction es with
  | nil => intro l e x _ he; cases he
  | cons e0 es ih =>
      intro l e x hnd he hd hx hxe
      simp only [List.map_cons, List.nodup_cons] at hnd
      rcases List.mem_cons.mp he with he | he
      · subst he
        have h1 : swapPure l (e :: es) = swapPure (dropName l e.name ++ [e]) es := by
          simp [swapPure, hd]
        rw [h1] at hx
        rcases mem_swapPure es _ x hx with h | h
        · rcases List.mem_append.mp h with h | h
          · exact absurd hxe (mem_dropName h).2
          · simpa using h
        · exact absurd (hxe ▸ List.mem_map_of_mem Entry.name h.1) hnd.1
      · by_cases h0 : e0.isDir
        · have h1 : swapPure l (e0 :: es) = swapPure (dropName l e0.name ++ [e0]) es := by
            simp [swapPure, h0]
          rw [h1] at hx
          exact ih _ e x hnd.2 he hd hx hxe
        · have h1 : swapPure l (e0 :: es) = swapPure l es := by
            simp [swapPure, h0]
          rw [h1] at hx
          exact ih l e x hnd.2 he hd hx hxe

theorem swapPure_filter_isDir (es : List Entry) :
    ∀ l, swapPure l (es.filter (fun e => e.isDir)) = swapPure l es := by
  induction es with
  | nil => intro l; rfl
  | cons e es ih =>
      intro l
      cases hd : e.isDir with
      | true => simp [List.filter_cons, hd, swapPure, ih]
      | false => simp [List.filter_cons, hd, swapPure, ih]

theorem swapLoop_ok (env : OrchEnv)
    (hrc : ∀ nm, env.removeCause nm = none)
    (hrn : ∀ nm, env.renameCause nm = none) :
    ∀ (es staging live : List Entry),
      ∃ st, swapLoop env es staging live = .ok (st, swapPure live es) := by
  intro es
  induction es with
  | nil => intro staging live; exact ⟨staging, rfl⟩
  | cons e es ih =>
      intro staging live
      by_cases hd : e.isDir
      · have hifr : (if hasName live e.name then env.removeCause e.name else none)
            = none := by
          split
          · exact hrc e.name
          · rfl
        obtain ⟨st, hst⟩ := ih (dropName staging e.name) (dropName live e.name ++ [e])
        refine ⟨st, ?_⟩
        have h1 : swapLoop env (e :: es) staging live =
            swapLoop env es (dropName staging e.name) (dropName live e.name ++ [e]) := by
          simp [swapLoop, hd, hifr, hrn e.name]
        have h2 : swapPure live (e :: es) = swapPure (dropName live e.name ++ [e]) es := by
          simp [swapPure, hd]
        rw [h1, h2, hst]
      · have h1 : swapLoop env (e :: es) staging live = swapLoop env es staging live := by
          simp [swapLoop, hd]
        have h2 : swapPure live (e :: es) = swapPure live es := by
          simp [swapPure, hd]
        rw [h1, h2]
        exact ih staging live

theorem swapLoop_remove_fail (env : OrchEnv) (es staging lv : List Entry)
    (e : Entry) (c : String) (hd : e.isDir = true)
    (hex : hasName lv e.name = true)
    (hc : env.removeCause e.name = some c) :
    swapLoop env (e :: es) staging lv =
      .error ("remove all: " ++ pathErrMsg "remove" (env.dataDir ++ "/" ++ e.name) c,
        staging, lv) := by
  simp [swapLoop, hd, hex, hc]

theorem swapLoop_rename_fail (env : OrchEnv) (es staging lv : List Entry)
    (e : Entry) (c : String) (hd : e.isDir = true)
    (hrm : (if hasName lv e.name then env.removeCause e.name else none) = none)
    (hre : env.renameCause e.name = some c) :
    swapLoop env (e :: es) staging lv =
      .error ("rename " ++ e.name ++ ": " ++ c, staging, dropName lv e.name) := by
  simp [swapLoop, hd, hrm, hre]

theorem mainRun_all_ok (env : OrchEnv) (live : List Entry)
    (hmk : env.mkdirCause = none)
    (hmig : ∀ m, env.migResult m = none) :
    mainRun env live = swapPhase env (cometBFTDatabases ++
      (if env.lightStat = StatRes.found then [lightClientDBName] else [])) live := by
  have hseq := migrateSeq_ok env.migResult cometBFTDatabases [] (fun m _ => hmig m)
  by_cases hl : env.lightStat = StatRes.found
  · simp [mainRun, hmk, hseq, lightStep, hl, hmig lightClientDBName]
  · simp [mainRun, hmk, hseq, lightStep, hl]

theorem migrateSeq_sub (mig : String → Option String) :
    ∀ (names acc : List String) (m : String),
      m ∈ (migrateSeq mig acc names).1 → m ∈ acc ∨ m ∈ names := by
  intro names
  induction names with
  | nil =>
      intro acc m h
      exact Or.inl (by simpa [migrateSeq] using h)
  | cons n ns ih =>
      intro acc m h
      cases hn : mig n with
      | some e =>
          simp only [migrateSeq, hn] at h
          exact Or.inl h
      | none =>
          simp only [migrateSeq, hn] at h
          rcases ih (acc ++ [n]) m h with h | h
          · rcases List.mem_append.mp h with h | h
            · exact Or.inl h
            · simp only [List.mem_singleton] at h
              exact Or.inr (by simp [h])
          · exact Or.inr (by simp [h])

theorem swapPhase_migratedStores (env : OrchEnv) (done : List String)
    (live : List Entry) :
    (swapPhase env done live).migratedStores = done := by
  by_cases hc : env.confirmed
  · cases hrd : env.readDirCause with
    | some c => simp [swapPhase, hc, hrd]
    | none =>
        cases hsw : swapLoop env env.stagingEntries env.stagingEntries live with
        | error p =>
            obtain ⟨m, st, lv⟩ := p
            simp [swapPhase, hc, hrd, hsw]
        | ok p =>
            obtain ⟨st, lv⟩ := p
            cases hrt : env.removeTempCause with
            | some c => simp [swapPhase, hc, hrd, hsw, finishRun, hrt]
            | none => simp [swapPhase, hc, hrd, hsw, finishRun, hrt]
  · cases hrt : env.removeTempCause with
    | some c => simp [swapPhase, hc, finishRun, hrt]
    | none => simp [swapPhase, hc, finishRun, hrt]

theorem mainRun_migrated_sub (env : OrchEnv) (live : List Entry)
    (hlight : env.lightStat ≠ StatRes.found) :
    ∀ m ∈ (mainRun env live).migratedStores, m ∈ cometBFTDatabases := by
  intro m hm
  cases hmk : env.mkdirCause with
  | some c =>
      simp only [mainRun, hmk] at hm
      simp at hm
  | none =>
      cases hseq : migrateSeq env.migResult [] cometBFTDatabases with
      | mk done omsg =>
          have hdone : ∀ x ∈ done, x ∈ cometBFTDatabases := by
            intro x hx
            have hsub := migrateSeq_sub env.migResult cometBFTDatabases [] x
            rw [hseq] at hsub
            rcases hsub hx with h | h
            · cases h
            · exact h
          cases omsg with
          | some msg =>
              simp only [mainRun, hmk, hseq] at hm
              exact hdone m hm
          | none =>
              have hls : lightStep env done = (done, none) := by
                simp [lightStep, hlight]
              simp only [mainRun, hmk, hseq, hls] at hm
              rw [swapPhase_migratedStores] at hm
              exact hdone m hm

/-- Claim C3: if the operator declines the backup confirmation, the swap
step is skipped entirely: the live data directory is unchanged by the
whole run, the staging directory (with all freshly migrated data) is
removed, and the run succeeds. -/
theorem C3_declined_swap_skipped (env : OrchEnv) (live : List Entry)
    (hmk : env.mkdirCause = none)
    (hmig : ∀ m, env.migResult m = none)
    (hconf : env.confirmed = false)
    (hrt : env.removeTempCause = none) :
    (mainRun env live).live = live ∧
    (mainRun env live).staging = none ∧
    (mainRun env live).exitCode = 0 ∧
    (mainRun env live).fatalMsg = none := by
  rw [mainRun_all_ok env live hmk hmig]
  simp [swapPhase, hconf, finishRun, hrt]

/-- Claim C3 witness. -/
theorem C3_declined_swap_skipped_witness :
    (mainRun declinedEnv liveSample).live = liveSample ∧
    (mainRun declinedEnv liveSample).staging = none ∧
    (mainRun declinedEnv liveSample).exitCode = 0 ∧
    (mainRun declinedEnv liveSample).fatalMsg = none :=
  C3_declined_swap_skipped declinedEnv liveSample rfl (fun _ => rfl) rfl rfl

/-- Claim C4: if the operator confirms, then every top-level directory
entry of the staging directory replaces any same-named entry of the live
data directory (the live entry is removed first, then the staged entry is
renamed in — full replacement, never a merge), and afterwards the staging
directory no longer exists. -/
theorem C4_confirmed_swap (env : OrchEnv) (live : List Entry)
    (hmk : env.mkdirCause = none)
    (hmig : ∀ m, env.migResult m = none)
    (hconf : env.confirmed = true)
    (hrd : env.readDirCause = none)
    (hrc : ∀ nm, env.removeCause nm = none)
    (hrn : ∀ nm, env.renameCause nm = none)
    (hrt : env.removeTempCause = none)
    (hnd : (env.stagingEntries.map Entry.name).Nodup) :
    (mainRun env live).exitCode = 0 ∧
    (mainRun env live).staging = none ∧
    (∀ e ∈ env.stagingEntries, e.isDir = true →
      findEntry (mainRun env live).live e.name = some e ∧
      ∀ x ∈ (mainRun env live).live, x.name = e.name → x = e) := by
  obtain ⟨st, hsw⟩ := swapLoop_ok env hrc hrn env.stagingEntries env.stagingEntries live
  have hmr : (mainRun env live).exitCode = 0 ∧ (mainRun env live).staging = none ∧
      (mainRun env live).live = swapPure live env.stagingEntries := by
    rw [mainRun_all_ok env live hmk hmig]
    simp [swapPhase, hconf, hrd, hsw, finishRun, hrt]
  refine ⟨hmr.1, hmr.2.1, ?_⟩
  intro e he hd
  rw [hmr.2.2]
  exact ⟨findEntry_swapPure_mem env.stagingEntries live e hnd he hd,
    fun x hx hxe => swapPure_name_unique env.stagingEntries live e x hnd he hd hx hxe⟩

/-- Claim C4 witness: the staged `blockstore` replaces the live one and
the staged `state` is added; the staging directory is gone. -/
theorem C4_confirmed_swap_witness :
    (mainRun confirmedEnv liveSample).exitCode = 0 ∧
    (mainRun confirmedEnv liveSample).staging = none ∧
    findEntry (mainRun confirmedEnv liveSample).live "blockstore" =
      some ⟨"blockstore", true, [9]⟩ ∧
    findEntry (mainRun confirmedEnv liveSample).live "state" =
      some ⟨"state", true, [8]⟩ := by
  have h := C4_confirmed_swap confirmedEnv liveSample rfl (fun _ => rfl) rfl rfl
    (fun _ => rfl) (fun _ => rfl) rfl (by decide)
  exact ⟨h.1, h.2.1, (h.2.2 ⟨"blockstore", true, [9]⟩ (by decide) rfl).1,
    (h.2.2 ⟨"state", true, [8]⟩ (by decide) rfl).1⟩

/-- Claim C10: during the confirmed swap only top-level staging entries
that are directories are moved: the resulting live directory is exactly
what swapping the directory entries alone produces, and a top-level
non-directory staging file is never moved into the live directory and is
deleted together with the staging directory. -/
theorem C10_files_not_moved (env : OrchEnv) (live : List Entry)
    (hmk : env.mkdirCause = none)
    (hmig : ∀ m, env.migResult m = none)
    (hconf : env.confirmed = true)
    (hrd : env.readDirCause = none)
    (hrc : ∀ nm, env.removeCause nm = none)
    (hrn : ∀ nm, env.renameCause nm = none)
    (hrt : env.removeTempCause = none) :
    (mainRun env live).exitCode = 0 ∧
    (mainRun env live).staging = none ∧
    (mainRun env live).live =
      swapPure live (env.stagingEntries.filter (fun e => e.isDir)) ∧
    (∀ f ∈ env.stagingEntries, f.isDir = false → f ∉ live →
      f ∉ (mainRun env live).live) := by
  obtain ⟨st, hsw⟩ := swapLoop_ok env hrc hrn env.stagingEntries env.stagingEntries live
  have hmr : (mainRun env live).exitCode = 0 ∧ (mainRun env live).staging = none ∧
      (mainRun env live).live = swapPure live env.stagingEntries := by
    rw [mainRun_all_ok env live hmk hmig]
    simp [swapPhase, hconf, hrd, hsw, finishRun, hrt]
  refine ⟨hmr.1, hmr.2.1, ?_, ?_⟩
  · rw [hmr.2.2, swapPure_filter_isDir]
  · intro f hf hdir hlive hmem
    rw [hmr.2.2] at hmem
    rcases mem_swapPure env.stagingEntries live f hmem with h | h
    · exact hlive h
    · have hdt := h.2
      rw [hdir] at hdt
      cases hdt

/-- Claim C10 witness: the staged plain file `LOCK` never reaches the
live directory and is gone with the staging directory. -/
theorem C10_files_not_moved_witness :
    (mainRun confirmedEnv liveSample).staging = none ∧
    (⟨"LOCK", false, [7]⟩ : Entry) ∉ (mainRun confirmedEnv liveSample).live := by
  have h := C10_files_not_moved confirmedEnv liveSample rfl (fun _ => rfl) rfl rfl
    (fun _ => rfl) (fun _ => rfl) rfl
  exact ⟨h.2.1, h.2.2.2 ⟨"LOCK", false, [7]⟩ (by decide) rfl (by decide)⟩

/-- Claim C8: during the confirmed swap any failure of the recursive
removal of an existing live entry, or of the rename of a staged entry, is
fatal, and the abort message names the affected directory/entry (the
removal message carries the full live path inside the `*PathError`, the
rename message carries the entry name). -/
theorem C8_swap_failures_fatal (env : OrchEnv) (live : List Entry)
    (c m : String) (st lv : List Entry)
    (hmk : env.mkdirCause = none)
    (hmig : ∀ x, env.migResult x = none)
    (hlight : env.lightStat = StatRes.notFound)
    (hconf : env.confirmed = true)
    (hrd : env.readDirCause = none) :
    (∀ es staging lv0 (e : Entry), e.isDir = true → hasName lv0 e.name = true →
      env.removeCause e.name = some c →
      swapLoop env (e :: es) staging lv0 =
        .error ("remove all: " ++ pathErrMsg "remove" (env.dataDir ++ "/" ++ e.name) c,
          staging, lv0)) ∧
    (∀ es staging lv0 (e : Entry), e.isDir = true →
      (if hasName lv0 e.name then env.removeCause e.name else none) = none →
      env.renameCause e.name = some c →
      swapLoop env (e :: es) staging lv0 =
        .error ("rename " ++ e.name ++ ": " ++ c, staging, dropName lv0 e.name)) ∧
    (swapLoop env env.stagingEntries env.stagingEntries live = .error (m, st, lv) →
      (mainRun env live).exitCode = 1 ∧
      (mainRun env live).fatalMsg = some m) := by
  refine ⟨fun es staging lv0 e hd hex hc =>
      swapLoop_remove_fail env es staging lv0 e c hd hex hc,
    fun es staging lv0 e hd hrm hre =>
      swapLoop_rename_fail env es staging lv0 e c hd hrm hre, ?_⟩
  intro hsw
  rw [mainRun_all_ok env live hmk hmig]
  simp [hlight, swapPhase, hconf, hrd, hsw]

/-- Claim C8 witness: a failing removal of the existing live
`blockstore` and a failing rename of the staged `state` each abort with
the entry named; at the orchestrator level the removal failure exits
with code 1. -/
theorem C8_swap_failures_fatal_witness :
    swapLoop removeFailEnv [⟨"blockstore", true, [9]⟩] [⟨"blockstore", true, [9]⟩]
        liveSample =
      .error ("remove all: " ++
        pathErrMsg "remove" ("DATA" ++ "/" ++ "blockstore") "permission denied",
        [⟨"blockstore", true, [9]⟩], liveSample) ∧
    (mainRun removeFailEnv liveSample).exitCode = 1 ∧
    swapLoop renameFailEnv [⟨"state", true, [8]⟩] [⟨"state", true, [8]⟩] liveSample =
      .error ("rename " ++ "state" ++ ": " ++ "cross-device link",
        [⟨"state", true, [8]⟩], dropName liveSample "state") := by
  have h1 := C8_swap_failures_fatal removeFailEnv liveSample "permission denied"
    ("remove all: " ++ pathErrMsg "remove" ("DATA" ++ "/" ++ "blockstore") "permission denied")
    [⟨"blockstore", true, [9]⟩] liveSample
    rfl (fun _ => rfl) rfl rfl rfl
  have h2 := C8_swap_failures_fatal renameFailEnv liveSample "cross-device link"
    "x" [] [] rfl (fun _ => rfl) rfl rfl rfl
  refine ⟨?_, ?_, ?_⟩
  · exact h1.1 [⟨"blockstore", true, [9]⟩] [⟨"blockstore", true, [9]⟩] liveSample
      ⟨"blockstore", true, [9]⟩ rfl (by decide) rfl
  · exact (h1.2.2 rfl).1
  · exact h2.2.1 [⟨"state", true, [8]⟩] [⟨"state", true, [8]⟩] liveSample
      ⟨"state", true, [8]⟩ rfl (by decide) rfl

/-- Claim C7 counterexample: when the `os.Stat` probe for the
light-client store fails with an error that is not plain absence, the run
is NOT aborted — it completes with exit code 0, no fatal message, and the
light-client store simply skipped — contradicting the claim that a stat
error during detection is fatal. -/
theorem C7_statError_not_fatal_cex :
    statErrEnv.lightStat = StatRes.statError ∧
    (mainRun statErrEnv []).exitCode = 0 ∧
    (mainRun statErrEnv []).fatalMsg = none ∧
    lightClientDBName ∉ (mainRun statErrEnv []).migratedStores := by
  refine ⟨rfl, ?_, ?_, ?_⟩ <;> decide

/-- Claim C7 (amended): errors of `mkdirAll`, `removeAll` and `rename`
are fatal to the run with the offending path named; the `os.Stat` probe
for the light-client store is only an existence test — any stat error is
treated like absence: not fatal, the store's migration is skipped. -/
theorem C7_fs_errors_amended (env : OrchEnv) (live : List Entry) (c : String) :
    (env.mkdirCause = some c → mainRun env live =
      ⟨1, some ("Failed to create the temporary directory: " ++
        pathErrMsg "mkdir" env.tempDir c), [], live, none⟩) ∧
    (env.lightStat ≠ StatRes.found →
      lightClientDBName ∉ (mainRun env live).migratedStores) ∧
    (env.mkdirCause = none → (∀ m, env.migResult m = none) →
      env.lightStat = StatRes.statError → env.confirmed = false →
      env.removeTempCause = none →
      (mainRun env live).exitCode = 0 ∧ (mainRun env live).fatalMsg = none) ∧
    (∀ es staging lv (e : Entry), e.isDir = true → hasName lv e.name = true →
      env.removeCause e.name = some c →
      swapLoop env (e :: es) staging lv =
        .error ("remove all: " ++ pathErrMsg "remove" (env.dataDir ++ "/" ++ e.name) c,
          staging, lv)) ∧
    (∀ es staging lv (e : Entry), e.isDir = true →
      (if hasName lv e.name then env.removeCause e.name else none) = none →
      env.renameCause e.name = some c →
      swapLoop env (e :: es) staging lv =
        .error ("rename " ++ e.name ++ ": " ++ c, staging, dropName lv e.name)) ∧
    (env.mkdirCause = none → (∀ m, env.migResult m = none) →
      env.confirmed = false → env.removeTempCause = some c →
      (mainRun env live).exitCode = 1 ∧
      (mainRun env live).fatalMsg =
        some ("Failed to remove the temporary directory: " ++
          pathErrMsg "remove" env.tempDir c)) := by
  refine ⟨?_, ?_, ?_, ?_, ?_, ?_⟩
  · intro h
    simp [mainRun, h]
  · intro h hmem
    exact absurd (mainRun_migrated_sub env live h lightClientDBName hmem) (by decide)
  · intro hmk hmig hls hconf hrt
    rw [mainRun_all_ok env live hmk hmig]
    simp [swapPhase, hconf, finishRun, hrt]
  · exact fun es staging lv e hd hex hc =>
      swapLoop_remove_fail env es staging lv e c hd hex hc
  · exact fun es staging lv e hd hrm hre =>
      swapLoop_rename_fail env es staging lv e c hd hrm hre
  · intro hmk hmig hconf hrt
    rw [mainRun_all_ok env live hmk hmig]
    simp [swapPhase, hconf, finishRun, hrt]

/-- Claim C7 (amended) witness. -/
theorem C7_fs_errors_amended_witness :
    (mainRun mkdirFailEnv liveSample).fatalMsg =
      some ("Failed to create the temporary directory: " ++
        pathErrMsg "mkdir" "TMP" "permission denied") ∧
    lightClientDBName ∉ (mainRun statErrEnv liveSample).migratedStores ∧
    (mainRun statErrEnv liveSample).exitCode = 0 ∧
    (mainRun removeTempFailEnv liveSample).exitCode = 1 := by
  refine ⟨?_, ?_, ?_, ?_⟩
  · rw [(C7_fs_errors_amended mkdirFailEnv liveSample "permission denied").1 rfl]
    rfl
  · exact (C7_fs_errors_amended statErrEnv liveSample "x").2.1 (by decide)
  · exact ((C7_fs_errors_amended statErrEnv liveSample "x").2.2.1 rfl (fun _ => rfl)
      rfl rfl rfl).1
  · exact ((C7_fs_errors_amended removeTempFailEnv liveSample "directory not empty").2.2.2.2.2
      rfl (fun _ => rfl) rfl rfl).1

/-- Claim C9 (code bug): the progress goroutine's `for`/`select` loop has
no exit path — on every input it prints and continues — and the only
teardown `migrateDB` performs when a store's migration ends is stopping
the ticker; the channel is never closed and no stop signal exists, so the
background task is never stopped and its resources are not released
before the next store's migration starts. -/
theorem C9_reporter_never_stopped :
    (∀ i, (reporterHandle i).2 = ReporterCmd.continueLoop) ∧
    migrateDBTeardown = [ReporterEvent.tickerStop] ∧
    reporterReleased migrateDBTeardown = false := by
  refine ⟨?_, rfl, rfl⟩
  intro i
  cases i <;> rfl

end DBMigrate
